import Mathlib

set_option maxRecDepth 40000

/-!
# Verification of the gundam-ccs-backend exchange-rate and Pago Móvil subsystem

Shallow embedding of the payments subsystem of the repository:

* `payments/models.py` — `ExchangeRateLog` (the rate store, its `save`
  override computing `change_percentage` and managing `is_active`),
  `ExchangeRateLog.get_current_rate`, `ExchangeRateSnapshot`,
  `PagoMovilVerificationRequest` (`approve`/`reject`).
* `payments/services/exchange_rate_service.py` — `ExchangeRateService`
  (`get_current_rate`, `fetch_and_store_rate`, `_check_rate_alerts`,
  `set_manual_rate`), the one-hour cache and the constant fallback rate.
* `payments/services/payment_processor.py` — `_create_exchange_rate_snapshot`.
* `payments/serializers.py` — `ManualRateSetSerializer.validate_rate`,
  `PagoMovilVerificationCreateSerializer.validate_sender_id` /
  `validate` (rate limiting).
* `payments/views.py` — `PagoMovilStatusUpdateView.patch`.

Decimal values are modelled as exact rationals (`ℚ`); Python's
`round(x, 2)` on decimals is modelled by half-even rounding at two
decimal places.  Wall-clock time and Django `auto_now_add` timestamps
are modelled by a natural-number clock carried in the system state;
cached entries carry their absolute expiry time.  External rate sources
are modelled by their observable outcome: `none` for a failed source and
`some (rate, sourceName)` for a successful one.
-/

/-- One row of the `ExchangeRateLog` table (`payments/models.py`). -/
structure RateRecord where
  id : Nat
  usd_to_ves : ℚ
  source : String
  timestamp : Nat
  is_active : Bool
  fetch_success : Bool
  error_message : String
  change_percentage : Option ℚ
deriving DecidableEq

/-- The `ExchangeRateLog` table together with the auto-increment primary key. -/
structure RateStore where
  records : List RateRecord
  nextId : Nat
deriving DecidableEq

/-- Round a rational to the nearest integer, ties to even — the rounding
used by Python's `round` on `Decimal` values. -/
def roundHalfEven (x : ℚ) : ℤ :=
  let f : ℤ := x.floor
  let frac : ℚ := x - (f : ℚ)
  if frac < 1 / 2 then f
  else if 1 / 2 < frac then f + 1
  else if f % 2 = 0 then f else f + 1

/-- `round(x, 2)` of `payments/models.py` line 327. -/
def round2 (x : ℚ) : ℚ := (roundHalfEven (x * 100) : ℚ) / 100

/-- Filter of the "previous successful rate" query in
`ExchangeRateLog.save`: `fetch_success=True`, `timestamp__lt` the saved
record's timestamp, excluding the saved record itself. -/
def psFilter (ts selfId : Nat) (r : RateRecord) : Bool :=
  r.fetch_success && decide (r.timestamp < ts) && (r.id != selfId)

/-- Accumulator selecting the latest matching row
(`order_by('-timestamp').first()`). -/
def psAccum (acc : Option (Nat × ℚ)) (r : RateRecord) : Option (Nat × ℚ) :=
  match acc with
  | none => some (r.timestamp, r.usd_to_ves)
  | some (bt, bv) =>
      if bt < r.timestamp then some (r.timestamp, r.usd_to_ves) else some (bt, bv)

/-- Timestamp and rate of the most recent successful record strictly
older than `ts`, excluding record `selfId` — the `previous_rate` query of
`ExchangeRateLog.save`. -/
def prevSuccessfulRate (l : List RateRecord) (ts selfId : Nat) : Option (Nat × ℚ) :=
  (l.filter (psFilter ts selfId)).foldl psAccum none

/-- The second `save(update_fields=['change_percentage'])` in
`ExchangeRateLog.save`: update the row `i` with the computed percentage. -/
def setChange (l : List RateRecord) (i : Nat) (cp : ℚ) : List RateRecord :=
  l.map fun r => if r.id == i then { r with change_percentage := some cp } else r

/-- Per-row effect of
`ExchangeRateLog.objects.filter(is_active=True).exclude(id=self.id).update(is_active=False)`. -/
def deactOne (i : Nat) (r : RateRecord) : RateRecord :=
  if r.id != i && r.is_active then { r with is_active := false } else r

/-- Deactivate every active record other than record `i`
(`ExchangeRateLog.save`, line 333). -/
def deactivateOthers (l : List RateRecord) (i : Nat) : List RateRecord :=
  l.map (deactOne i)

/-- `ExchangeRateLog.objects.create(...)` followed by the overridden
`save`: insert the row, then, when `fetch_success`, compute
`change_percentage` against the most recent prior successful record and,
when additionally `is_active`, deactivate all other active records.
Returns the new store and the created record (as the Python instance
looks after `save`, i.e. with `change_percentage` filled in). -/
def commitRecord (st : RateStore) (now : Nat) (rate : ℚ) (src : String)
    (success active : Bool) (err : String) : RateStore × RateRecord :=
  let i := st.nextId
  let r0 : RateRecord :=
    { id := i, usd_to_ves := rate, source := src, timestamp := now,
      is_active := active, fetch_success := success, error_message := err,
      change_percentage := none }
  let recs1 := st.records ++ [r0]
  let step2 : List RateRecord × RateRecord :=
    if success then
      match prevSuccessfulRate recs1 now i with
      | some (_, pv) =>
          let cp := round2 ((rate - pv) / pv * 100)
          (setChange recs1 i cp, { r0 with change_percentage := some cp })
      | none => (recs1, r0)
    else (recs1, r0)
  let recs3 := if success && active then deactivateOthers step2.1 i else step2.1
  (⟨recs3, i + 1⟩, step2.2)

/-- Number of rows with `is_active = True`. -/
def countActive (l : List RateRecord) : Nat :=
  l.countP fun r => r.is_active

/-- Number of rows with both `is_active = True` and `fetch_success = True`. -/
def countActiveSuccess (l : List RateRecord) : Nat :=
  l.countP fun r => r.is_active && r.fetch_success

/-- The `change_percentage` a record should carry according to
`ExchangeRateLog.save`, recomputed over a record list: the rounded
relative change against the most recent prior successful record, or
`none` when no prior successful record exists. -/
def cpValue (l : List RateRecord) (r : RateRecord) : Option ℚ :=
  match prevSuccessfulRate l r.timestamp r.id with
  | some (_, pv) => some (round2 ((r.usd_to_ves - pv) / pv * 100))
  | none => none

/-- Every stored record carries the `change_percentage` prescribed by
`ExchangeRateLog.save`; failed fetches carry `none`. -/
def cpSpec (l : List RateRecord) : Prop :=
  ∀ r ∈ l, r.change_percentage = if r.fetch_success then cpValue l r else none

/-- The dict returned by the service's rate accessors
(`usd_to_ves`, `last_updated`, `source`, `change_percentage`). -/
structure RateView where
  usd_to_ves : ℚ
  last_updated : Nat
  source : String
  change_percentage : Option ℚ
deriving DecidableEq

/-- Python truthiness applied to `change_percentage`
(`float(x.change_percentage) if x.change_percentage else None`):
`Decimal('0')` is falsy, so a zero change is reported as `None`. -/
def viewCp (cp : Option ℚ) : Option ℚ :=
  match cp with
  | some c => if c = 0 then none else some c
  | none => none

/-- One `ExchangeRateAlert` row (type, referenced rate record,
optional threshold). -/
structure RateAlert where
  alert_type : String
  rate_id : Nat
  threshold_value : Option ℚ
deriving DecidableEq

/-- State shared by the exchange-rate service: the database table, the
`exchange_rate:current` cache entry (value and absolute expiry), the
`exchange_rate:last_fetch` cache entry, the alert table, the number of
times the external source chain has been invoked, and the clock. -/
structure SysState where
  store : RateStore
  cache : Option (RateView × Nat)
  lastFetch : Option (Nat × Nat)
  alerts : List RateAlert
  chainCalls : Nat
  now : Nat
deriving DecidableEq

/-- `ExchangeRateService.FALLBACK_RATE`. -/
def FALLBACK_RATE : ℚ := 38

/-- `ExchangeRateService.CACHE_TIMEOUT` (seconds). -/
def CACHE_TIMEOUT : Nat := 3600

/-- `ExchangeRateService.ALERT_THRESHOLD`. -/
def ALERT_THRESHOLD : ℚ := 5

/-- The `for fetch_func in self.sources` loop of `fetch_and_store_rate`:
the first source returning a usable rate short-circuits the rest. -/
def firstSuccess : List (Option (ℚ × String)) → Option (ℚ × String)
  | [] => none
  | some rs :: _ => some rs
  | none :: rest => firstSuccess rest

/-- `ExchangeRateService._check_rate_alerts`: a high-change alert when
the (truthy) change percentage reaches the threshold, a fetch-error
alert for failed fetches, and a source-fallback alert for fallback
records. -/
def checkRateAlerts (alerts : List RateAlert) (r : RateRecord) : List RateAlert :=
  let a1 : List RateAlert :=
    match r.change_percentage with
    | some cp =>
        if cp ≠ 0 ∧ ALERT_THRESHOLD ≤ |cp| then
          [⟨"high_change", r.id, some cp⟩]
        else []
    | none => []
  let a2 : List RateAlert :=
    if r.fetch_success then [] else [⟨"fetch_error", r.id, none⟩]
  let a3 : List RateAlert :=
    if r.source == "fallback" then [⟨"source_fallback", r.id, none⟩] else []
  alerts ++ a1 ++ a2 ++ a3

/-- `ExchangeRateService.fetch_and_store_rate`: try the sources in
order; if all fail substitute the constant fallback rate with
`source='fallback'` and `fetch_success=False`; store the record (always
`is_active=True`), run the alert checks, cache the resulting view for
one hour, and return it. -/
def fetchAndStoreRate (s : SysState) (sources : List (Option (ℚ × String))) :
    SysState × Option RateView :=
  let s1 := { s with chainCalls := s.chainCalls + 1 }
  let rs := (firstSuccess sources).getD (FALLBACK_RATE, "fallback")
  let success := rs.2 != "fallback"
  let err := if success then "" else "All sources failed, using fallback rate"
  let c := commitRecord s1.store s1.now rs.1 rs.2 success true err
  let alerts' := checkRateAlerts s1.alerts c.2
  let view : RateView :=
    { usd_to_ves := rs.1, last_updated := c.2.timestamp, source := rs.2,
      change_percentage := viewCp c.2.change_percentage }
  ({ s1 with
      store := c.1,
      alerts := alerts',
      cache := some (view, s1.now + CACHE_TIMEOUT),
      lastFetch := some (s1.now, s1.now + CACHE_TIMEOUT) },
    some view)

/-- Accumulator of `latest('timestamp')`. -/
def latestByTs (acc : Option RateRecord) (r : RateRecord) : Option RateRecord :=
  match acc with
  | none => some r
  | some b => if b.timestamp < r.timestamp then some r else some b

/-- `ExchangeRateLog.get_current_rate` (`payments/models.py`): the
latest record with `is_active=True` and `fetch_success=True`, or `none`
when no such record exists. -/
def dbGetCurrentRate (l : List RateRecord) : Option RateRecord :=
  (l.filter fun r => r.is_active && r.fetch_success).foldl latestByTs none

/-- The view dict built from a database record
(`exchange_rate_service.py` lines 62–67). -/
def mkViewOfRecord (r : RateRecord) : RateView :=
  { usd_to_ves := r.usd_to_ves, last_updated := r.timestamp,
    source := r.source, change_percentage := viewCp r.change_percentage }

/-- `ExchangeRateService.get_current_rate`: serve the cache when not
forcing and not expired; otherwise serve a fresh-enough (younger than
one hour) active database record, repopulating the cache; otherwise
fetch and store a new rate. -/
def getCurrentRate (s : SysState) (force : Bool)
    (sources : List (Option (ℚ × String))) : SysState × Option RateView :=
  let cacheHit : Option RateView :=
    if !force then
      match s.cache with
      | some (v, exp) => if s.now < exp then some v else none
      | none => none
    else none
  match cacheHit with
  | some v => (s, some v)
  | none =>
    match dbGetCurrentRate s.store.records with
    | some r =>
        if !force && decide (s.now - r.timestamp < CACHE_TIMEOUT) then
          let v := mkViewOfRecord r
          ({ s with cache := some (v, s.now + CACHE_TIMEOUT) }, some v)
        else fetchAndStoreRate s sources
    | none => fetchAndStoreRate s sources

/-- `ExchangeRateService.set_manual_rate`: store an always-active manual
record, create a manual-override alert, delete and immediately
repopulate the cache with the new view. -/
def setManualRate (s : SysState) (rate : ℚ) : SysState × RateView :=
  let c := commitRecord s.store s.now rate "manual" true true ""
  let alerts' := s.alerts ++ [⟨"manual_override", c.2.id, none⟩]
  let view : RateView :=
    { usd_to_ves := rate, last_updated := c.2.timestamp, source := "manual",
      change_percentage := viewCp c.2.change_percentage }
  ({ s with
      store := c.1,
      alerts := alerts',
      cache := some (view, s.now + CACHE_TIMEOUT) },
    view)

/-- An event acting on the shared service state: the clock advancing, a
scheduled/forced `fetch_and_store_rate` (with the observable outcomes of
the configured sources), a manual override, or a `get_current_rate`
call. -/
inductive SysOp where
  | tick (d : Nat)
  | fetchStore (sources : List (Option (ℚ × String)))
  | manual (rate : ℚ)
  | getRate (force : Bool) (sources : List (Option (ℚ × String)))
deriving DecidableEq

/-- Apply one event. -/
def applyOp (s : SysState) : SysOp → SysState
  | .tick d => { s with now := s.now + d }
  | .fetchStore sources => (fetchAndStoreRate s sources).1
  | .manual rate => (setManualRate s rate).1
  | .getRate force sources => (getCurrentRate s force sources).1

/-- Apply a sequence of events. -/
def applyOps (s : SysState) (ops : List SysOp) : SysState :=
  ops.foldl applyOp s

/-- Empty database, empty cache, clock at zero. -/
def initState : SysState :=
  { store := ⟨[], 0⟩, cache := none, lastFetch := none, alerts := [],
    chainCalls := 0, now := 0 }

/-- One `ExchangeRateSnapshot` row tied to an order
(`payments/models.py`; the order link is a `OneToOneField`, so the
database enforces at most one snapshot per order). -/
structure ExchangeRateSnapshot where
  order_id : Nat
  usd_to_ves : ℚ
  amount_usd : ℚ
  amount_ves : ℚ
deriving DecidableEq

/-- `ExchangeRateSnapshot.objects.create(order=..., ...)`: the insert
fails with an `IntegrityError` when a snapshot for the same order
already exists (unique constraint of the one-to-one field); otherwise
the row is appended and no existing row is touched. -/
def createSnapshotRow (snaps : List ExchangeRateSnapshot) (oid : Nat)
    (rate total : ℚ) : Except String (List ExchangeRateSnapshot) :=
  if snaps.any fun sn => sn.order_id == oid then
    Except.error "IntegrityError"
  else
    Except.ok (snaps ++ [⟨oid, rate, total, total * rate⟩])

/-- `PaymentProcessor._create_exchange_rate_snapshot`: fetch the current
rate (not forced), and when a rate is available attempt to insert the
snapshot.  The whole body is wrapped in `try/except Exception: logger.error(...)`,
so an insert failure is logged and swallowed — the function always
returns normally to its caller. -/
def createExchangeRateSnapshot (s : SysState)
    (snaps : List ExchangeRateSnapshot) (oid : Nat) (total : ℚ)
    (sources : List (Option (ℚ × String))) :
    SysState × List ExchangeRateSnapshot :=
  let g := getCurrentRate s false sources
  match g.2 with
  | some v =>
      match createSnapshotRow snaps oid v.usd_to_ves total with
      | Except.ok snaps1 => (g.1, snaps1)
      | Except.error _ => (g.1, snaps)
  | none => (g.1, snaps)

/-- The order fields touched by `PagoMovilVerificationRequest.approve`. -/
structure OrderInfo where
  payment_status : String
  status : String
deriving DecidableEq

/-- A `PagoMovilVerificationRequest` row (the fields relevant to the
approval state machine). -/
structure VerificationRequest where
  status : String
  order : Option OrderInfo
  notes : String
  approved_by : Option Nat
  approved_at : Option Nat
deriving DecidableEq

/-- `PagoMovilVerificationRequest.approve` (`payments/models.py` lines
591–602): unconditionally set the status to `approved`, record the
approver and the timestamp, and, when an order is linked, mark it
paid/confirmed.  The method performs no check of the current status. -/
def approveRequest (req : VerificationRequest) (admin now : Nat) :
    VerificationRequest :=
  let req1 := { req with
      status := "approved",
      approved_by := some admin,
      approved_at := some now }
  match req1.order with
  | some o =>
      { req1 with order := some { o with payment_status := "paid", status := "confirmed" } }
  | none => req1

/-- `PagoMovilVerificationRequest.reject`: unconditionally set the
status to `rejected`, record the actor and timestamp, and overwrite the
notes when a reason is given. -/
def rejectRequest (req : VerificationRequest) (admin : Nat) (reason : String)
    (now : Nat) : VerificationRequest :=
  let req1 := { req with
      status := "rejected",
      approved_by := some admin,
      approved_at := some now }
  if reason != "" then { req1 with notes := "Rejected: " ++ reason } else req1

/-- `PagoMovilStatusUpdateView.patch` (`payments/views.py` lines
1041–1074): after the serializer validates that the requested status is
`approved` or `rejected`, apply the corresponding model method and
answer HTTP 200; an invalid status yields HTTP 400.  No check of the
request's current status is made anywhere on this path. -/
def patchStatus (req : VerificationRequest) (new_status notes : String)
    (admin now : Nat) : VerificationRequest × Nat :=
  if new_status == "approved" then
    let r1 := approveRequest req admin now
    let r2 := if notes != "" then { r1 with notes := notes } else r1
    (r2, 200)
  else if new_status == "rejected" then
    (rejectRequest req admin notes now, 200)
  else (req, 400)

/-- `PagoMovilVerificationCreateSerializer.validate`, the count of the
user's requests with `created_at__gte = now - timedelta(hours=1)`.
Creation times are integers (seconds). -/
def countRecentRequests (times : List Int) (now : Int) : Nat :=
  (times.filter fun t => decide (now - 3600 ≤ t)).length

/-- `PagoMovilVerificationCreateSerializer.validate`: reject when the
user already has 3 or more requests in the trailing hour. -/
def validateVerificationCreate (times : List Int) (now : Int) :
    Except String Unit :=
  if 3 ≤ countRecentRequests times now then
    Except.error "Maximum 3 verification requests per hour allowed"
  else Except.ok ()

/-- `ManualRateSetSerializer.validate_rate` (`payments/serializers.py`
lines 345–359): a non-positive or too-low rate is rejected; a rate above
100 is only logged as suspicious.  The boolean in the result records
whether the suspicious-rate warning was logged. -/
def validate_rate (v : ℚ) : Except String (ℚ × Bool) :=
  if v ≤ 0 then Except.error "Exchange rate must be positive"
  else if v < 10 then Except.error "Exchange rate seems too low. Please verify."
  else Except.ok (v, decide (100 < v))

/-- Full serializer validation of the manual rate: the `rate` field is
declared with `min_value=1` and `max_value=100000`, and field bounds are
checked before `validate_rate` runs. -/
def manualRateSerializerValidate (v : ℚ) : Except String (ℚ × Bool) :=
  if v < 1 then Except.error "Ensure this value is greater than or equal to 1."
  else if 100000 < v then Except.error "Ensure this value is less than or equal to 100000."
  else validate_rate v

/-- ASCII decimal digit (the `\d` of the sender-id pattern on the ASCII
inputs the serializer receives). -/
def isAsciiDigit (c : Char) : Bool := '0' ≤ c && c ≤ '9'

/-- The optional `-#` suffix group of the pattern
`^[VJPE][-]\d{8}([-]\d)?$`. -/
def matchesOptionalSuffix (cs : List Char) : Bool :=
  match cs with
  | [] => true
  | d1 :: d2 :: rest2 => (d1 == '-') && isAsciiDigit d2 && rest2.isEmpty
  | _ => false

/-- `re.match(r'^[VJPE][-]\d{8}([-]\d)?$', value)` as a predicate on the
character list. -/
def matchesSenderId (cs : List Char) : Bool :=
  match cs with
  | p :: d :: rest =>
      (p == 'V' || p == 'J' || p == 'P' || p == 'E') && (d == '-')
        && ((rest.take 8).length == 8) && (rest.take 8).all isAsciiDigit
        && matchesOptionalSuffix (rest.drop 8)
  | _ => false

/-- `value.replace(' ', '').upper()`. -/
def normalizeSenderId (s : String) : List Char :=
  (s.data.filter fun c => c != ' ').map Char.toUpper

/-- `PagoMovilVerificationCreateSerializer.validate_sender_id`: strip
spaces, uppercase, and require the pattern; return the normalized value
or a `ValidationError`. -/
def validate_sender_id (s : String) : Except String String :=
  let v := normalizeSenderId s
  if matchesSenderId v then Except.ok (String.mk v)
  else Except.error "Sender ID must be in format V-12345678 or J-12345678-0"

/-- Program counter of one `get_current_rate(force_fetch=False)` caller,
decomposed at its natural interleaving points: the cache/database read,
then (on a miss) the external fetch-and-store. -/
inductive CallerPC where
  | start
  | willFetch
  | finished (result : Option RateView)
deriving DecidableEq

/-- The cache-read/database-read phase of `get_current_rate` for one
caller; on a full miss the caller proceeds to the fetch phase. -/
def callerReadPhase (s : SysState) : SysState × CallerPC :=
  let cacheHit : Option RateView :=
    match s.cache with
    | some (v, exp) => if s.now < exp then some v else none
    | none => none
  match cacheHit with
  | some v => (s, .finished (some v))
  | none =>
    match dbGetCurrentRate s.store.records with
    | some r =>
        if s.now - r.timestamp < CACHE_TIMEOUT then
          let v := mkViewOfRecord r
          ({ s with cache := some (v, s.now + CACHE_TIMEOUT) }, .finished (some v))
        else (s, .willFetch)
    | none => (s, .willFetch)

/-- One atomic step of one caller. -/
def callerStep (s : SysState) (pc : CallerPC)
    (sources : List (Option (ℚ × String))) : SysState × CallerPC :=
  match pc with
  | .start => callerReadPhase s
  | .willFetch =>
      let f := fetchAndStoreRate s sources
      (f.1, .finished f.2)
  | .finished r => (s, .finished r)

/-- Shared state plus the program counters of a burst of concurrent
`get_current_rate` callers. -/
structure BurstState where
  sys : SysState
  pcs : List CallerPC
deriving DecidableEq

/-- Run the step of caller `i` (no-op for an out-of-range index). -/
def stepCaller (b : BurstState) (sources : List (Option (ℚ × String)))
    (i : Nat) : BurstState :=
  match b.pcs.get? i with
  | some pc =>
      let c := callerStep b.sys pc sources
      { sys := c.1, pcs := b.pcs.set i c.2 }
  | none => b

/-- Run a schedule: a list of caller indices, each performing its next
atomic step in turn. -/
def runSchedule (b : BurstState) (sources : List (Option (ℚ × String)))
    (sched : List Nat) : BurstState :=
  sched.foldl (fun b2 i => stepCaller b2 sources i) b

/-- Specification-side statement of the documented sender-id format: a
prefix letter `V`, `J`, `P` or `E`, a dash, exactly eight ASCII digits,
and optionally a dash and one more digit. -/
def SenderIdFormat (cs : List Char) : Prop :=
  ∃ (p : Char) (ds tl : List Char),
    cs = p :: '-' :: (ds ++ tl)
    ∧ (p = 'V' ∨ p = 'J' ∨ p = 'P' ∨ p = 'E')
    ∧ ds.length = 8
    ∧ (∀ c ∈ ds, isAsciiDigit c = true)
    ∧ (tl = [] ∨ ∃ d : Char, tl = ['-', d] ∧ isAsciiDigit d = true)

theorem deactOne_fields (i : Nat) (r : RateRecord) :
    (deactOne i r).id = r.id ∧ (deactOne i r).timestamp = r.timestamp ∧
    (deactOne i r).fetch_success = r.fetch_success ∧
    (deactOne i r).usd_to_ves = r.usd_to_ves ∧
    (deactOne i r).change_percentage = r.change_percentage := by
  unfold deactOne; split <;> exact ⟨rfl, rfl, rfl, rfl, rfl⟩

theorem psFilter_deactOne (ts j i : Nat) (r : RateRecord) :
    psFilter ts j (deactOne i r) = psFilter ts j r := by
  obtain ⟨h1, h2, h3, -, -⟩ := deactOne_fields i r
  unfold psFilter; rw [h1, h2, h3]

theorem psAccum_deactOne (acc : Option (Nat × ℚ)) (i : Nat) (r : RateRecord) :
    psAccum acc (deactOne i r) = psAccum acc r := by
  obtain ⟨-, h2, -, h4, -⟩ := deactOne_fields i r
  unfold psAccum
  cases acc with
  | none => rw [h2, h4]
  | some p => cases p with | mk bt bv => rw [h2, h4]

theorem prevSuccessfulRate_deact_aux (i ts j : Nat) (l : List RateRecord) :
    ∀ acc, ((l.map (deactOne i)).filter (psFilter ts j)).foldl psAccum acc
      = (l.filter (psFilter ts j)).foldl psAccum acc := by
  induction l with
  | nil => intro acc; rfl
  | cons r tl ih =>
    intro acc
    cases h : psFilter ts j r with
    | true =>
      rw [List.map_cons,
        List.filter_cons_of_pos (by rw [psFilter_deactOne]; exact h),
        List.filter_cons_of_pos h, List.foldl_cons, List.foldl_cons,
        psAccum_deactOne]
      exact ih _
    | false =>
      rw [List.map_cons,
        List.filter_cons_of_neg (by rw [psFilter_deactOne]; simp [h]),
        List.filter_cons_of_neg (by simp [h])]
      exact ih _

theorem prevSuccessfulRate_deact (l : List RateRecord) (i ts j : Nat) :
    prevSuccessfulRate (l.map (deactOne i)) ts j = prevSuccessfulRate l ts j :=
  prevSuccessfulRate_deact_aux i ts j l none

theorem prevSuccessfulRate_append (l : List RateRecord) (x : RateRecord)
    (ts j : Nat) (h : psFilter ts j x = false) :
    prevSuccessfulRate (l ++ [x]) ts j = prevSuccessfulRate l ts j := by
  unfold prevSuccessfulRate
  rw [List.filter_append]
  simp [List.filter_cons, h]

theorem map_eq_self_of {α : Type} (l : List α) (f : α → α)
    (h : ∀ a ∈ l, f a = a) : l.map f = l := by
  induction l with
  | nil => rfl
  | cons x xs ih =>
    rw [List.map_cons, h x (List.mem_cons_self x xs),
      ih (fun a ha => h a (List.mem_cons_of_mem x ha))]

theorem setChange_append_fresh (l : List RateRecord) (r0 : RateRecord)
    (i : Nat) (cp : ℚ) (hfresh : ∀ r ∈ l, r.id ≠ i) (hr0 : r0.id = i) :
    setChange (l ++ [r0]) i cp = l ++ [{ r0 with change_percentage := some cp }] := by
  unfold setChange
  rw [List.map_append]
  congr 1
  · exact map_eq_self_of l _ fun r hr => by
      simp [beq_eq_false_iff_ne.mpr (hfresh r hr)]
  · simp [hr0]

theorem deactivateOthers_append_self (l : List RateRecord) (r2 : RateRecord)
    (i : Nat) (hr2 : r2.id = i) :
    deactivateOthers (l ++ [r2]) i = (l.map (deactOne i)) ++ [r2] := by
  unfold deactivateOthers
  rw [List.map_append]
  congr 1
  simp [deactOne, hr2]

theorem commitRecord_spec (st : RateStore) (now : Nat) (rate : ℚ) (src : String)
    (success active : Bool) (err : String)
    (hfresh : ∀ r ∈ st.records, r.id ≠ st.nextId) :
    (commitRecord st now rate src success active err).2
      = { id := st.nextId, usd_to_ves := rate, source := src, timestamp := now,
          is_active := active, fetch_success := success, error_message := err,
          change_percentage :=
            if success then
              match prevSuccessfulRate st.records now st.nextId with
              | some (_, pv) => some (round2 ((rate - pv) / pv * 100))
              | none => none
            else none }
    ∧ (commitRecord st now rate src success active err).1.records
        = (if success && active then st.records.map (deactOne st.nextId)
           else st.records) ++ [(commitRecord st now rate src success active err).2]
    ∧ (commitRecord st now rate src success active err).1.nextId = st.nextId + 1 := by
  have hprev : ∀ suc act : Bool,
      prevSuccessfulRate (st.records ++
        [{ id := st.nextId, usd_to_ves := rate, source := src, timestamp := now,
           is_active := act, fetch_success := suc, error_message := err,
           change_percentage := none }]) now st.nextId
        = prevSuccessfulRate st.records now st.nextId :=
    fun suc act => prevSuccessfulRate_append _ _ _ _ (by simp [psFilter])
  cases success with
  | false =>
    refine ⟨?_, ?_, ?_⟩ <;> simp [commitRecord]
  | true =>
    cases hm : prevSuccessfulRate st.records now st.nextId with
    | none =>
      cases active with
      | false =>
        refine ⟨?_, ?_, ?_⟩ <;> simp [commitRecord, hprev, hm]
      | true =>
        refine ⟨?_, ?_, ?_⟩ <;> simp [commitRecord, hprev, hm]
        exact deactivateOthers_append_self st.records _ st.nextId rfl
    | some p =>
      obtain ⟨pt, pv⟩ := p
      cases active with
      | false =>
        have hset := setChange_append_fresh st.records
          { id := st.nextId, usd_to_ves := rate, source := src, timestamp := now,
            is_active := false, fetch_success := true, error_message := err,
            change_percentage := none }
          st.nextId (round2 ((rate - pv) / pv * 100)) hfresh rfl
        refine ⟨?_, ?_, ?_⟩ <;> simp [commitRecord, hprev, hm, hset]
      | true =>
        have hset := setChange_append_fresh st.records
          { id := st.nextId, usd_to_ves := rate, source := src, timestamp := now,
            is_active := true, fetch_success := true, error_message := err,
            change_percentage := none }
          st.nextId (round2 ((rate - pv) / pv * 100)) hfresh rfl
        refine ⟨?_, ?_, ?_⟩ <;> simp [commitRecord, hprev, hm, hset]
        exact deactivateOthers_append_self st.records _ st.nextId rfl

theorem activeSuccess_deactOne (i : Nat) (r : RateRecord) (h : r.id ≠ i) :
    ((deactOne i r).is_active && (deactOne i r).fetch_success) = false := by
  have hb : (r.id != i) = true := by simp [h]
  unfold deactOne
  cases ha : r.is_active with
  | true => rw [hb]; simp [ha]
  | false => rw [hb]; simp [ha]

theorem prevSuccessfulRate_prefix (l : List RateRecord) (i : Nat) (b : Bool)
    (ts0 j : Nat) :
    prevSuccessfulRate (if b then l.map (deactOne i) else l) ts0 j
      = prevSuccessfulRate l ts0 j := by
  cases b with
  | false => rfl
  | true => exact prevSuccessfulRate_deact l i ts0 j

theorem prevSuccessfulRate_final (l : List RateRecord) (i : Nat) (b : Bool)
    (r2 : RateRecord) (ts0 j : Nat) (hx : psFilter ts0 j r2 = false) :
    prevSuccessfulRate ((if b then l.map (deactOne i) else l) ++ [r2]) ts0 j
      = prevSuccessfulRate l ts0 j := by
  rw [prevSuccessfulRate_append _ _ _ _ hx, prevSuccessfulRate_prefix]

theorem commit_preserves (st : RateStore) (now : Nat) (rate : ℚ) (src : String)
    (success active : Bool) (err : String)
    (hts : ∀ r ∈ st.records, r.timestamp ≤ now)
    (hid : ∀ r ∈ st.records, r.id < st.nextId)
    (hcnt : countActiveSuccess st.records ≤ 1)
    (hcp : cpSpec st.records) :
    (∀ r ∈ (commitRecord st now rate src success active err).1.records,
        r.timestamp ≤ now) ∧
    (∀ r ∈ (commitRecord st now rate src success active err).1.records,
        r.id < (commitRecord st now rate src success active err).1.nextId) ∧
    countActiveSuccess (commitRecord st now rate src success active err).1.records ≤ 1 ∧
    cpSpec (commitRecord st now rate src success active err).1.records := by
  have hfresh : ∀ r ∈ st.records, r.id ≠ st.nextId :=
    fun r hr => Nat.ne_of_lt (hid r hr)
  obtain ⟨h2, hrec, hnext⟩ :=
    commitRecord_spec st now rate src success active err hfresh
  set r2 := (commitRecord st now rate src success active err).2 with hr2def
  have hr2id : r2.id = st.nextId := by rw [h2]
  have hr2ts : r2.timestamp = now := by rw [h2]
  have hr2fs : r2.fetch_success = success := by rw [h2]
  have hr2act : r2.is_active = active := by rw [h2]
  have hr2uv : r2.usd_to_ves = rate := by rw [h2]
  have hr2cp : r2.change_percentage
      = if success then
          match prevSuccessfulRate st.records now st.nextId with
          | some (_, pv) => some (round2 ((rate - pv) / pv * 100))
          | none => none
        else none := by rw [h2]
  have hmemfields : ∀ y ∈ (if success && active then
        st.records.map (deactOne st.nextId) else st.records),
      ∃ r, r ∈ st.records ∧ y.id = r.id ∧ y.timestamp = r.timestamp ∧
        y.fetch_success = r.fetch_success ∧ y.usd_to_ves = r.usd_to_ves ∧
        y.change_percentage = r.change_percentage := by
    intro y hy
    cases hsa : success && active with
    | false =>
      rw [hsa] at hy
      simp only [if_neg Bool.false_ne_true] at hy
      exact ⟨y, hy, rfl, rfl, rfl, rfl, rfl⟩
    | true =>
      rw [hsa] at hy
      simp only [if_pos rfl] at hy
      obtain ⟨r, hr, hyr⟩ := List.mem_map.mp hy
      obtain ⟨f1, f2, f3, f4, f5⟩ := deactOne_fields st.nextId r
      exact ⟨r, hr, by rw [← hyr]; exact f1, by rw [← hyr]; exact f2,
        by rw [← hyr]; exact f3, by rw [← hyr]; exact f4, by rw [← hyr]; exact f5⟩
  refine ⟨?_, ?_, ?_, ?_⟩
  · intro y hy
    rw [hrec] at hy
    rcases List.mem_append.mp hy with h | h
    · obtain ⟨r, hr, -, hts', -, -, -⟩ := hmemfields y h
      rw [hts']; exact hts r hr
    · have hy2 : y = r2 := by simpa using h
      rw [hy2, hr2ts]
  · intro y hy
    rw [hrec] at hy
    rw [hnext]
    rcases List.mem_append.mp hy with h | h
    · obtain ⟨r, hr, hid', -, -, -, -⟩ := hmemfields y h
      rw [hid']; exact Nat.lt_succ_of_lt (hid r hr)
    · have hy2 : y = r2 := by simpa using h
      rw [hy2, hr2id]; exact Nat.lt_succ_self _
  · rw [hrec]
    unfold countActiveSuccess at hcnt ⊢
    rw [List.countP_append]
    rcases Bool.eq_false_or_eq_true (success && active) with hsa | hsa
    · rw [if_pos hsa]
      have hz : List.countP (fun r => r.is_active && r.fetch_success)
          (st.records.map (deactOne st.nextId)) = 0 := by
        rw [List.countP_map]
        apply List.countP_eq_zero.mpr
        intro r hr
        simp only [Function.comp_apply]
        rw [activeSuccess_deactOne st.nextId r (hfresh r hr)]
        simp
      rw [hz]
      simp only [List.countP_cons, List.countP_nil]
      split <;> omega
    · rw [if_neg (by simp [hsa])]
      have hra : (r2.is_active && r2.fetch_success) = false := by
        rw [hr2act, hr2fs, Bool.and_comm]
        exact hsa
      have hz : List.countP (fun r => r.is_active && r.fetch_success) [r2] = 0 := by
        simp [List.countP_cons, hra]
      omega
  · unfold cpSpec
    intro y hy
    rw [hrec] at hy
    rcases List.mem_append.mp hy with h | h
    · obtain ⟨r, hr, hid', hts', hfs', huv', hcp'⟩ := hmemfields y h
      have hdec : decide (r2.timestamp < y.timestamp) = false := by
        rw [hr2ts, hts']
        simp only [decide_eq_false_iff_not, not_lt]
        exact hts r hr
      have hps : psFilter y.timestamp y.id r2 = false := by
        unfold psFilter
        rw [hdec]
        simp
      have hprevEq := prevSuccessfulRate_final st.records st.nextId
        (success && active) r2 y.timestamp y.id hps
      have hcv : cpValue ((if success && active then
            st.records.map (deactOne st.nextId) else st.records) ++ [r2]) y
          = cpValue st.records r := by
        unfold cpValue
        rw [hprevEq, hts', hid', huv']
      rw [hrec, hcv, hcp', hfs']
      exact hcp r hr
    · have hy2 : y = r2 := by simpa using h
      rw [hy2]
      have hps : psFilter r2.timestamp r2.id r2 = false := by
        unfold psFilter
        simp
      have hprevEq := prevSuccessfulRate_final st.records st.nextId
        (success && active) r2 r2.timestamp r2.id hps
      have hcv : cpValue ((if success && active then
            st.records.map (deactOne st.nextId) else st.records) ++ [r2]) r2
          = match prevSuccessfulRate st.records now st.nextId with
            | some (_, pv) => some (round2 ((rate - pv) / pv * 100))
            | none => none := by
        unfold cpValue
        rw [hprevEq, hr2ts, hr2id, hr2uv]
      rw [hrec, hcv, hr2cp, hr2fs]

/-- Reachability invariant tying the store to the clock: timestamps never
exceed the clock, primary keys are below the auto-increment counter, at
most one record is simultaneously active and successful, and every
record carries the prescribed `change_percentage`. -/
def SysInv (s : SysState) : Prop :=
  (∀ r ∈ s.store.records, r.timestamp ≤ s.now) ∧
  (∀ r ∈ s.store.records, r.id < s.store.nextId) ∧
  countActiveSuccess s.store.records ≤ 1 ∧
  cpSpec s.store.records

theorem SysInv_of_commit {s s' : SysState} (rate : ℚ) (src : String)
    (succ act : Bool) (err : String) (h : SysInv s)
    (hst : s'.store = (commitRecord s.store s.now rate src succ act err).1)
    (hnow : s'.now = s.now) : SysInv s' := by
  obtain ⟨h1, h2, h3, h4⟩ := h
  obtain ⟨g1, g2, g3, g4⟩ := commit_preserves s.store s.now rate src succ act err h1 h2 h3 h4
  refine ⟨?_, ?_, ?_, ?_⟩
  · rw [hst, hnow]; exact g1
  · rw [hst]; exact g2
  · rw [hst]; exact g3
  · rw [hst]; exact g4

theorem SysInv_mono {s s' : SysState} (h : SysInv s) (hst : s'.store = s.store)
    (hnow : s.now ≤ s'.now) : SysInv s' := by
  obtain ⟨h1, h2, h3, h4⟩ := h
  refine ⟨?_, ?_, ?_, ?_⟩
  · rw [hst]; exact fun r hr => le_trans (h1 r hr) hnow
  · rw [hst]; exact h2
  · rw [hst]; exact h3
  · rw [hst]; exact h4

theorem fetchAndStoreRate_sysInv (s : SysState)
    (sources : List (Option (ℚ × String))) (h : SysInv s) :
    SysInv (fetchAndStoreRate s sources).1 := by
  refine SysInv_of_commit
    ((firstSuccess sources).getD (FALLBACK_RATE, "fallback")).1
    ((firstSuccess sources).getD (FALLBACK_RATE, "fallback")).2
    (((firstSuccess sources).getD (FALLBACK_RATE, "fallback")).2 != "fallback")
    true
    (if (((firstSuccess sources).getD (FALLBACK_RATE, "fallback")).2 != "fallback") = true
      then "" else "All sources failed, using fallback rate")
    h rfl rfl

theorem getCurrentRate_cases (s : SysState) (force : Bool)
    (sources : List (Option (ℚ × String))) :
    ((getCurrentRate s force sources).1.store = s.store
      ∧ (getCurrentRate s force sources).1.now = s.now)
    ∨ (getCurrentRate s force sources).1 = (fetchAndStoreRate s sources).1 := by
  unfold getCurrentRate
  repeat' split
  all_goals first
    | exact Or.inl ⟨rfl, rfl⟩
    | exact Or.inr rfl

theorem sysInv_applyOp (s : SysState) (op : SysOp) (h : SysInv s) :
    SysInv (applyOp s op) := by
  cases op with
  | tick d => exact SysInv_mono h rfl (Nat.le_add_right _ _)
  | fetchStore sources => exact fetchAndStoreRate_sysInv s sources h
  | manual rate => exact SysInv_of_commit rate "manual" true true "" h rfl rfl
  | getRate force sources =>
    rcases getCurrentRate_cases s force sources with ⟨hst, hnow⟩ | heq
    · exact SysInv_mono h hst (le_of_eq hnow.symm)
    · show SysInv (getCurrentRate s force sources).1
      rw [heq]
      exact fetchAndStoreRate_sysInv s sources h

theorem sysInv_applyOps (ops : List SysOp) (s : SysState) (h : SysInv s) :
    SysInv (applyOps s ops) := by
  induction ops generalizing s with
  | nil => exact h
  | cons op rest ih => exact ih (applyOp s op) (sysInv_applyOp s op h)

theorem sysInv_initState : SysInv initState := by
  refine ⟨?_, ?_, ?_, ?_⟩ <;> simp [initState, countActiveSuccess, cpSpec]

theorem deactOne_inactive (i : Nat) (y : RateRecord) (h : y.id ≠ i) :
    (deactOne i y).is_active = false := by
  have hb : (y.id != i) = true := by simp [h]
  unfold deactOne
  cases hy : y.is_active with
  | true => rw [hb]; simp [hy]
  | false => rw [hb]; simp [hy]

theorem foldl_latestByTs_mem (l : List RateRecord) :
    ∀ (acc : Option RateRecord) (r : RateRecord),
      l.foldl latestByTs acc = some r → acc = some r ∨ r ∈ l := by
  induction l with
  | nil => intro acc r h; exact Or.inl h
  | cons x tl ih =>
    intro acc r h
    rcases ih (latestByTs acc x) r h with h1 | h1
    · cases acc with
      | none =>
        have hx : (some x : Option RateRecord) = some r := h1
        exact Or.inr (by rw [← Option.some.inj hx]; exact List.mem_cons_self x tl)
      | some b =>
        have hc : latestByTs (some b) x
            = if b.timestamp < x.timestamp then some x else some b := rfl
        rw [hc] at h1
        by_cases hbt : b.timestamp < x.timestamp
        · rw [if_pos hbt] at h1
          exact Or.inr (by rw [← Option.some.inj h1]; exact List.mem_cons_self x tl)
        · rw [if_neg hbt] at h1
          exact Or.inl h1
    · exact Or.inr (List.mem_cons_of_mem x h1)

theorem foldl_latestByTs_some (l : List RateRecord) :
    ∀ b : RateRecord, l.foldl latestByTs (some b) ≠ none := by
  induction l with
  | nil => intro b h; exact Option.noConfusion h
  | cons x tl ih =>
    intro b
    rw [List.foldl_cons]
    have hc : latestByTs (some b) x
        = if b.timestamp < x.timestamp then some x else some b := rfl
    rw [hc]
    by_cases h : b.timestamp < x.timestamp
    · rw [if_pos h]; exact ih x
    · rw [if_neg h]; exact ih b

theorem bool_and_split {a b : Bool} (h : (a && b) = true) :
    a = true ∧ b = true := by
  simp only [Bool.and_eq_true] at h
  exact h

theorem dbGetCurrentRate_some (l : List RateRecord) (r : RateRecord)
    (h : dbGetCurrentRate l = some r) :
    r ∈ l ∧ r.is_active = true ∧ r.fetch_success = true := by
  unfold dbGetCurrentRate at h
  rcases foldl_latestByTs_mem _ none r h with h1 | h1
  · exact Option.noConfusion h1
  · have hm := List.mem_filter.mp h1
    exact ⟨hm.1, (bool_and_split hm.2).1, (bool_and_split hm.2).2⟩

theorem dbGetCurrentRate_none_iff (l : List RateRecord) :
    dbGetCurrentRate l = none
      ↔ ∀ r ∈ l, ¬(r.is_active = true ∧ r.fetch_success = true) := by
  unfold dbGetCurrentRate
  constructor
  · intro h r hr hact
    have hmem : r ∈ l.filter (fun r => r.is_active && r.fetch_success) :=
      List.mem_filter.mpr ⟨hr, by rw [hact.1, hact.2]; rfl⟩
    cases hfl : l.filter (fun r => r.is_active && r.fetch_success) with
    | nil => rw [hfl] at hmem; exact absurd hmem (List.not_mem_nil r)
    | cons x tl =>
      rw [hfl, List.foldl_cons] at h
      have hx : latestByTs none x = some x := rfl
      rw [hx] at h
      exact foldl_latestByTs_some tl x h
  · intro h
    have hfl : l.filter (fun r => r.is_active && r.fetch_success) = [] := by
      apply List.filter_eq_nil_iff.mpr
      intro r hr hb
      exact h r hr ⟨(bool_and_split hb).1, (bool_and_split hb).2⟩
    rw [hfl]
    rfl

/-- Claim C1 (amended): for every sequence of operations on the service
(timed fetch-and-store calls, manual overrides, reads), at most one
`ExchangeRateLog` record has both `is_active = true` and
`fetch_success = true`; and a *successful* active commit deactivates
every other record.  (The unqualified single-active invariant of the
claim fails: a fallback record is committed with `is_active = true` and
`fetch_success = false`, and the deactivation step of
`ExchangeRateLog.save` is guarded by `fetch_success`, so the previously
active record stays active — see the counterexample.) -/
theorem rateStore_active_invariant :
    (∀ ops : List SysOp,
      countActiveSuccess (applyOps initState ops).store.records ≤ 1)
    ∧ (∀ (st : RateStore) (now : Nat) (rate : ℚ) (src err : String),
        (∀ r ∈ st.records, r.id ≠ st.nextId) →
        ∀ r ∈ (commitRecord st now rate src true true err).1.records,
          r.id ≠ st.nextId → r.is_active = false) := by
  constructor
  · intro ops
    exact (sysInv_applyOps ops initState sysInv_initState).2.2.1
  · intro st now rate src err hfresh r hmem hne
    obtain ⟨h2, hrec, -⟩ := commitRecord_spec st now rate src true true err hfresh
    rw [hrec] at hmem
    rcases List.mem_append.mp hmem with h | h
    · have h2m : r ∈ List.map (deactOne st.nextId) st.records := by
        simpa using h
      obtain ⟨y, hy, hyr⟩ := List.mem_map.mp h2m
      have hyid : y.id ≠ st.nextId := by
        intro hc
        apply hne
        rw [← hyr, (deactOne_fields st.nextId y).1, hc]
      rw [← hyr]
      exact deactOne_inactive st.nextId y hyid
    · have : r = (commitRecord st now rate src true true err).2 := by simpa using h
      rw [this, h2] at hne
      exact absurd rfl hne

/-- Witness for C1: the invariant evaluated after a manual override, and
the deactivation clause applied to a concrete one-record store. -/
theorem rateStore_active_invariant_witness :
    countActiveSuccess (applyOps initState [SysOp.manual 40]).store.records ≤ 1
    ∧ (⟨0, 40, "exchangerate_host", 0, false, true, "", none⟩ : RateRecord).is_active
        = false :=
  ⟨rateStore_active_invariant.1 [SysOp.manual 40],
   rateStore_active_invariant.2
     ⟨[⟨0, 40, "exchangerate_host", 0, true, true, "", none⟩], 1⟩ 5 41 "manual" ""
     (by with_unfolding_all decide)
     ⟨0, 40, "exchangerate_host", 0, false, true, "", none⟩
     (by with_unfolding_all decide)
     (by with_unfolding_all decide)⟩

/-- Counterexample to C1 as stated: a successful fetch of 40 followed by
an all-sources-failed fallback commit leaves TWO records with
`is_active = true` — the fallback record (`fetch_success = false`,
`is_active = true`) does not deactivate the previous active record. -/
theorem rateStore_active_invariant_counterexample :
    countActive (applyOps initState
      [SysOp.fetchStore [some (40, "exchangerate_host")], SysOp.tick 1,
       SysOp.fetchStore [none, none, none]]).store.records = 2
    ∧ ¬(countActive (applyOps initState
      [SysOp.fetchStore [some (40, "exchangerate_host")], SysOp.tick 1,
       SysOp.fetchStore [none, none, none]]).store.records ≤ 1) := by
  with_unfolding_all decide

/-- Claim C5 (amended): every stored record's `change_percentage` equals
the relative change against the most recent prior successful record
*rounded half-even to two decimal places* (`round(x, 2)`), is `none` for
the first successful record, and is `none` for every record with
`fetch_success = false`.  (The claim's exact, unrounded equality fails —
see the counterexample.) -/
theorem change_percentage_spec (ops : List SysOp) :
    ∀ r ∈ (applyOps initState ops).store.records,
      r.change_percentage
        = if r.fetch_success then
            cpValue (applyOps initState ops).store.records r
          else none :=
  (sysInv_applyOps ops initState sysInv_initState).2.2.2

/-- Witness for C5: the specification evaluated on the second of two
successful commits (39 then 41). -/
theorem change_percentage_spec_witness :
    (⟨1, 41, "exchangerate_host", 1, true, true, "", some (513 / 100)⟩ : RateRecord).change_percentage
      = if (⟨1, 41, "exchangerate_host", 1, true, true, "", some (513 / 100)⟩ : RateRecord).fetch_success
        then cpValue (applyOps initState
          [SysOp.fetchStore [some (39, "exchangerate_host")], SysOp.tick 1,
           SysOp.fetchStore [some (41, "exchangerate_host")]]).store.records
          ⟨1, 41, "exchangerate_host", 1, true, true, "", some (513 / 100)⟩
        else none :=
  change_percentage_spec
    [SysOp.fetchStore [some (39, "exchangerate_host")], SysOp.tick 1,
     SysOp.fetchStore [some (41, "exchangerate_host")]]
    _ (by with_unfolding_all decide)

/-- Counterexample to C5 as stated: storing 39 then 41, the stored
`change_percentage` is `round((41-39)/39*100, 2) = 5.13`, while the
claim's exact value `(41-39)/39×100 = 200/39 = 5.128205…` differs. -/
theorem change_percentage_exact_counterexample :
    ((applyOps initState
      [SysOp.fetchStore [some (39, "exchangerate_host")], SysOp.tick 1,
       SysOp.fetchStore [some (41, "exchangerate_host")]]).store.records.map
        (fun r => r.change_percentage)) = [none, some (513 / 100)]
    ∧ ((41 : ℚ) - 39) / 39 * 100 ≠ 513 / 100 := by
  with_unfolding_all decide

/-- Claim C10: `ExchangeRateLog.get_current_rate` returns only records
with `is_active = true` and `fetch_success = true`, returns `none`
exactly when no such record exists, and in particular never returns a
record with `fetch_success = false` (such as a committed fallback
record), even when it is the newest and flagged active. -/
theorem db_get_current_rate_spec :
    (∀ (l : List RateRecord) (r : RateRecord), dbGetCurrentRate l = some r →
        r ∈ l ∧ r.is_active = true ∧ r.fetch_success = true)
    ∧ (∀ l : List RateRecord, dbGetCurrentRate l = none ↔
        ∀ r ∈ l, ¬(r.is_active = true ∧ r.fetch_success = true))
    ∧ (∀ (l : List RateRecord) (rf : RateRecord), rf ∈ l →
        rf.fetch_success = false → dbGetCurrentRate l ≠ some rf) :=
  ⟨fun l r h => dbGetCurrentRate_some l r h,
   fun l => dbGetCurrentRate_none_iff l,
   fun l rf _ hfs h => by
     have hss := (dbGetCurrentRate_some l rf h).2.2
     rw [hfs] at hss
     exact Bool.noConfusion hss⟩

/-- Witness for C10: on a store holding an older active successful
record and a newer active fallback record, the accessor returns the
successful record and never the fallback one. -/
theorem db_get_current_rate_spec_witness :
    ((⟨0, 40, "exchangerate_host", 0, true, true, "", none⟩ : RateRecord)
        ∈ [(⟨0, 40, "exchangerate_host", 0, true, true, "", none⟩ : RateRecord),
           ⟨1, 38, "fallback", 1, true, false, "", none⟩]
      ∧ (⟨0, 40, "exchangerate_host", 0, true, true, "", none⟩ : RateRecord).is_active = true
      ∧ (⟨0, 40, "exchangerate_host", 0, true, true, "", none⟩ : RateRecord).fetch_success = true)
    ∧ dbGetCurrentRate
        [(⟨0, 40, "exchangerate_host", 0, true, true, "", none⟩ : RateRecord),
         ⟨1, 38, "fallback", 1, true, false, "", none⟩]
        ≠ some ⟨1, 38, "fallback", 1, true, false, "", none⟩ :=
  ⟨db_get_current_rate_spec.1 _ _ (by with_unfolding_all decide),
   db_get_current_rate_spec.2.2 _ _
     (by with_unfolding_all decide) (by with_unfolding_all decide)⟩

/-- Claim C2 (amended): `approve(actor)` sets the status to `approved`,
records the approver and timestamp, and marks a linked order
paid/confirmed — for a pending request, but equally for a request
already in a terminal state: neither the model method nor the PATCH view
checks the current status, so a repeated `approve` answers HTTP 200 and
silently re-applies the transition instead of raising an
`InvalidTransition` error (no such error exists in the code). -/
theorem approve_behavior (req : VerificationRequest) (admin now : Nat) :
    (approveRequest req admin now).status = "approved"
    ∧ (approveRequest req admin now).approved_by = some admin
    ∧ (approveRequest req admin now).approved_at = some now
    ∧ (∀ o : OrderInfo, req.order = some o →
        (approveRequest req admin now).order
          = some { o with payment_status := "paid", status := "confirmed" })
    ∧ (req.order = none → (approveRequest req admin now).order = none)
    ∧ (∀ notes : String, (patchStatus req "approved" notes admin now).2 = 200) := by
  refine ⟨?_, ?_, ?_, ?_, ?_, ?_⟩
  · cases ho : req.order <;> simp [approveRequest, ho]
  · cases ho : req.order <;> simp [approveRequest, ho]
  · cases ho : req.order <;> simp [approveRequest, ho]
  · intro o ho
    simp [approveRequest, ho]
  · intro ho
    simp [approveRequest, ho]
  · intro notes
    unfold patchStatus
    rw [if_pos (by rfl)]

/-- Witness for C2: approving a concrete pending request with a linked
order yields status approved and the order marked paid/confirmed. -/
theorem approve_behavior_witness :
    (approveRequest ⟨"pending", some ⟨"pending", "pending"⟩, "", none, none⟩ 7 100).status
        = "approved"
    ∧ (approveRequest ⟨"pending", some ⟨"pending", "pending"⟩, "", none, none⟩ 7 100).order
        = some ⟨"paid", "confirmed"⟩ :=
  ⟨(approve_behavior ⟨"pending", some ⟨"pending", "pending"⟩, "", none, none⟩ 7 100).1,
   (approve_behavior ⟨"pending", some ⟨"pending", "pending"⟩, "", none, none⟩ 7 100).2.2.2.1
     ⟨"pending", "pending"⟩ rfl⟩

/-- Counterexample to C2 as stated: PATCHing status `approved` on an
already-approved request answers HTTP 200 and re-applies the transition
(overwriting approver and timestamp) rather than raising an error. -/
theorem approve_terminal_counterexample :
    (⟨"approved", some ⟨"paid", "confirmed"⟩, "", some 1, some 5⟩
        : VerificationRequest).status = "approved"
    ∧ (patchStatus ⟨"approved", some ⟨"paid", "confirmed"⟩, "", some 1, some 5⟩
        "approved" "" 2 99).2 = 200
    ∧ (patchStatus ⟨"approved", some ⟨"paid", "confirmed"⟩, "", some 1, some 5⟩
        "approved" "" 2 99).1.approved_by = some 2
    ∧ (patchStatus ⟨"approved", some ⟨"paid", "confirmed"⟩, "", some 1, some 5⟩
        "approved" "" 2 99).1.approved_at = some 99 := by
  with_unfolding_all decide

/-- Claim C3 (amended): creating a snapshot a second time for the same
order hits the one-to-one unique constraint — the row insert fails with
an `IntegrityError` and the first snapshot's values are unchanged — but
`PaymentProcessor._create_exchange_rate_snapshot` catches and logs the
exception instead of surfacing an `AlreadyPinned`-style error: the call
returns normally to its caller with the snapshot table unchanged. -/
theorem snapshot_pin_twice (s : SysState) (snaps : List ExchangeRateSnapshot)
    (oid : Nat) (total : ℚ) (sources : List (Option (ℚ × String)))
    (h : ∃ sn ∈ snaps, sn.order_id = oid) :
    (createExchangeRateSnapshot s snaps oid total sources).2 = snaps
    ∧ ∀ rate amt : ℚ, ∃ m, createSnapshotRow snaps oid rate amt = Except.error m := by
  have hany : (snaps.any fun sn => sn.order_id == oid) = true := by
    obtain ⟨sn, hsn, he⟩ := h
    exact List.any_eq_true.mpr ⟨sn, hsn, by simp [he]⟩
  constructor
  · simp only [createExchangeRateSnapshot]
    cases hg : (getCurrentRate s false sources).2 with
    | none => rfl
    | some v =>
      have hrow : createSnapshotRow snaps oid v.usd_to_ves total
          = Except.error "IntegrityError" := by
        unfold createSnapshotRow
        rw [if_pos hany]
      show (match createSnapshotRow snaps oid v.usd_to_ves total with
        | Except.ok snaps1 => ((getCurrentRate s false sources).1, snaps1)
        | Except.error _ => ((getCurrentRate s false sources).1, snaps)).2 = snaps
      rw [hrow]
  · intro rate amt
    exact ⟨"IntegrityError", by unfold createSnapshotRow; rw [if_pos hany]⟩

/-- Witness for C3: with one snapshot already pinned to order 1, the
service call leaves the snapshot table unchanged. -/
theorem snapshot_pin_twice_witness :
    (createExchangeRateSnapshot
      { store := ⟨[], 0⟩, cache := some (⟨36, 0, "manual", none⟩, 100),
        lastFetch := none, alerts := [], chainCalls := 0, now := 0 }
      [⟨1, 40, 10, 400⟩] 1 10 []).2 = [⟨1, 40, 10, 400⟩] :=
  (snapshot_pin_twice
    { store := ⟨[], 0⟩, cache := some (⟨36, 0, "manual", none⟩, 100),
      lastFetch := none, alerts := [], chainCalls := 0, now := 0 }
    [⟨1, 40, 10, 400⟩] 1 10 []
    ⟨⟨1, 40, 10, 400⟩, List.mem_cons_self _ _, rfl⟩).1

/-- Counterexample to C3 as stated: the second pin for order 1 fails at
the database layer with an `IntegrityError`, yet the service method
returns normally (the error is caught and logged, not surfaced as
`AlreadyPinned`), and the first snapshot's values are unchanged. -/
theorem snapshot_pin_twice_counterexample :
    createSnapshotRow [⟨1, 40, 10, 400⟩] 1 36 10 = Except.error "IntegrityError"
    ∧ (createExchangeRateSnapshot
        { store := ⟨[], 0⟩, cache := some (⟨36, 0, "manual", none⟩, 100),
          lastFetch := none, alerts := [], chainCalls := 0, now := 0 }
        [⟨1, 40, 10, 400⟩] 1 10 []).2 = [⟨1, 40, 10, 400⟩] := by
  exact ⟨rfl, rfl⟩

/-- Claim C6: creation of a verification request succeeds exactly when
the user has fewer than 3 requests with `created_at ≥ now − 1 hour`;
three in-window requests block a 4th with the rate-limit error; a
request created more than 60 minutes before the attempt is not counted
by the sliding window. -/
theorem rate_limit_spec :
    (∀ (times : List Int) (now : Int),
      validateVerificationCreate times now = Except.ok ()
        ↔ countRecentRequests times now < 3)
    ∧ (∀ (t1 t2 t3 : Int) (rest : List Int) (now : Int),
        now - 3600 ≤ t1 → now - 3600 ≤ t2 → now - 3600 ≤ t3 →
        validateVerificationCreate (t1 :: t2 :: t3 :: rest) now
          = Except.error "Maximum 3 verification requests per hour allowed")
    ∧ (∀ (times : List Int) (t now : Int), t < now - 3600 →
        countRecentRequests (t :: times) now = countRecentRequests times now) := by
  refine ⟨?_, ?_, ?_⟩
  · intro times now
    unfold validateVerificationCreate
    by_cases h : 3 ≤ countRecentRequests times now
    · rw [if_pos h]
      constructor
      · intro hc; exact Except.noConfusion hc
      · intro hc; omega
    · rw [if_neg h]
      constructor
      · intro _; omega
      · intro _; rfl
  · intro t1 t2 t3 rest now h1 h2 h3
    have step : ∀ (t : Int) (l : List Int), now - 3600 ≤ t →
        countRecentRequests (t :: l) now = countRecentRequests l now + 1 := by
      intro t l ht
      unfold countRecentRequests
      simp [List.filter_cons, ht]
      rw [if_pos (by omega)]
      simp
    have hc : 3 ≤ countRecentRequests (t1 :: t2 :: t3 :: rest) now := by
      rw [step t1 _ h1, step t2 _ h2, step t3 _ h3]
      omega
    unfold validateVerificationCreate
    rw [if_pos hc]
  · intro times t now h
    have hdf : (decide (now - 3600 ≤ t)) = false := by
      simp only [decide_eq_false_iff_not]
      omega
    unfold countRecentRequests
    simp [List.filter_cons, hdf]
    rw [if_neg (by omega)]

/-- Witness for C6: a 4th submission 30 seconds after three submissions
is rejected, and a submission 3601 seconds old is not counted. -/
theorem rate_limit_spec_witness :
    validateVerificationCreate [0, 10, 20] 30
      = Except.error "Maximum 3 verification requests per hour allowed"
    ∧ countRecentRequests [0, 10, 20] 3601 = countRecentRequests [10, 20] 3601 :=
  ⟨rate_limit_spec.2.1 0 10 20 [] 30 (by with_unfolding_all decide)
      (by with_unfolding_all decide) (by with_unfolding_all decide),
   rate_limit_spec.2.2 [10, 20] 0 3601 (by with_unfolding_all decide)⟩

theorem matchesSenderId_iff (cs : List Char) :
    matchesSenderId cs = true ↔ SenderIdFormat cs := by
  constructor
  · intro h
    cases cs with
    | nil => exact absurd h (by simp [matchesSenderId])
    | cons p rest0 =>
      cases rest0 with
      | nil => exact absurd h (by simp [matchesSenderId])
      | cons d rest =>
        simp only [matchesSenderId, Bool.and_eq_true, Bool.or_eq_true,
          beq_iff_eq, List.all_eq_true] at h
        obtain ⟨⟨⟨⟨hp, hd⟩, hlen⟩, hdig⟩, hsuf⟩ := h
        subst hd
        refine ⟨p, rest.take 8, rest.drop 8, by rw [List.take_append_drop],
          by tauto, by simpa using hlen, hdig, ?_⟩
        cases hdr : rest.drop 8 with
        | nil => exact Or.inl rfl
        | cons d1 rest2 =>
          rw [hdr] at hsuf
          cases rest2 with
          | nil =>
            have : matchesOptionalSuffix [d1] = false := rfl
            rw [this] at hsuf
            exact Bool.noConfusion hsuf
          | cons d2 rest3 =>
            simp only [matchesOptionalSuffix, Bool.and_eq_true, beq_iff_eq,
              List.isEmpty_iff] at hsuf
            obtain ⟨⟨hd1, hd2⟩, hd3⟩ := hsuf
            exact Or.inr ⟨d2, by rw [hd1, hd3], hd2⟩
  · rintro ⟨p, ds, tl, rfl, hp, hlen, hdig, hsuf⟩
    have htake : (ds ++ tl).take 8 = ds := by
      rw [← hlen]
      exact List.take_left ds tl
    have hdrop : (ds ++ tl).drop 8 = tl := by
      rw [← hlen]
      exact List.drop_left ds tl
    show ((p == 'V' || p == 'J' || p == 'P' || p == 'E') && ('-' == '-')
        && (((ds ++ tl).take 8).length == 8) && ((ds ++ tl).take 8).all isAsciiDigit
        && matchesOptionalSuffix ((ds ++ tl).drop 8)) = true
    rw [htake, hdrop]
    have h1 : (p == 'V' || p == 'J' || p == 'P' || p == 'E') = true := by
      rcases hp with h | h | h | h <;> simp [h]
    have h3 : (ds.length == 8) = true := by simp [hlen]
    have h4 : ds.all isAsciiDigit = true := List.all_eq_true.mpr hdig
    have h5 : matchesOptionalSuffix tl = true := by
      rcases hsuf with h | ⟨d, hd, hdig1⟩
      · rw [h]; rfl
      · rw [hd]
        show (('-' == '-') && isAsciiDigit d && List.isEmpty []) = true
        simp [hdig1]
    rw [h1, h3, h4, h5]
    rfl

/-- Claim C8: `validate_sender_id` accepts exactly the strings whose
space-stripped, uppercased form matches `[VJPE]-########` optionally
followed by `-#`; concretely, "V-12345678" and "J-87654321-0" are
accepted while "V-1234567" (7 digits) and "X-12345678" (bad prefix) are
rejected with the validation error. -/
theorem sender_id_validation_spec :
    (∀ s : String, (∃ v, validate_sender_id s = Except.ok v)
        ↔ SenderIdFormat (normalizeSenderId s))
    ∧ validate_sender_id "V-12345678" = Except.ok "V-12345678"
    ∧ validate_sender_id "J-87654321-0" = Except.ok "J-87654321-0"
    ∧ validate_sender_id "V-1234567"
        = Except.error "Sender ID must be in format V-12345678 or J-12345678-0"
    ∧ validate_sender_id "X-12345678"
        = Except.error "Sender ID must be in format V-12345678 or J-12345678-0" := by
  refine ⟨?_, ?_, ?_, ?_, ?_⟩
  · intro s
    unfold validate_sender_id
    by_cases h : matchesSenderId (normalizeSenderId s) = true
    · rw [if_pos h]
      constructor
      · intro _
        exact (matchesSenderId_iff _).mp h
      · intro _
        exact ⟨_, rfl⟩
    · rw [if_neg h]
      constructor
      · rintro ⟨v, hv⟩
        exact Except.noConfusion hv
      · intro hf
        exact absurd ((matchesSenderId_iff _).mpr hf) h
  · rfl
  · rfl
  · rfl
  · rfl

/-- Witness for C8: the characterization applied at "V-12345678". -/
theorem sender_id_validation_spec_witness :
    SenderIdFormat (normalizeSenderId "V-12345678") :=
  (sender_id_validation_spec.1 "V-12345678").mp ⟨"V-12345678", rfl⟩

theorem getCurrentRate_cache_hit (s : SysState) (v : RateView) (exp : Nat)
    (sources : List (Option (ℚ × String)))
    (hc : s.cache = some (v, exp)) (hlt : s.now < exp) :
    getCurrentRate s false sources = (s, some v) := by
  simp [getCurrentRate, hc, hlt]

/-- Claim C7 (amended): the manual-rate serializer accepts exactly the
rates in `[10, 100000]` (rejecting non-positive, below-floor and
out-of-field-bounds values) and flags — without rejecting — rates above
100 as suspicious; any rate below the floor is a hard error; and
`set_manual_rate` commits an always-active record with
`source = "manual"` (deactivating all others), records a
manual-override alert, and rewrites the cache entry immediately, so the
very next non-forced `get_current_rate` call within the TTL returns the
new rate without consulting sources.  (The claim's "logs but does not
reject any rate above a high ceiling" fails for rates above the field
maximum 100000 — see the counterexample.) -/
theorem manual_rate_spec :
    (∀ v : ℚ, (manualRateSerializerValidate v = Except.ok (v, decide (100 < v)))
        ↔ (10 ≤ v ∧ v ≤ 100000))
    ∧ (∀ v : ℚ, v < 10 → ∃ m, manualRateSerializerValidate v = Except.error m)
    ∧ (∀ (s : SysState) (v : ℚ),
        (∀ r ∈ s.store.records, r.id ≠ s.store.nextId) →
        ∃ r2 : RateRecord,
          (setManualRate s v).1.store.records
              = s.store.records.map (deactOne s.store.nextId) ++ [r2]
          ∧ r2.id = s.store.nextId
          ∧ r2.usd_to_ves = v
          ∧ r2.source = "manual"
          ∧ r2.is_active = true
          ∧ r2.fetch_success = true
          ∧ (setManualRate s v).1.cache
              = some ((setManualRate s v).2, s.now + CACHE_TIMEOUT)
          ∧ (setManualRate s v).2.usd_to_ves = v
          ∧ (setManualRate s v).2.source = "manual"
          ∧ RateAlert.mk "manual_override" s.store.nextId none
              ∈ (setManualRate s v).1.alerts
          ∧ ∀ (d : Nat) (sources : List (Option (ℚ × String))),
              d < CACHE_TIMEOUT →
              getCurrentRate (applyOp (setManualRate s v).1 (SysOp.tick d))
                  false sources
                = (applyOp (setManualRate s v).1 (SysOp.tick d),
                   some (setManualRate s v).2)) := by
  refine ⟨?_, ?_, ?_⟩
  · intro v
    unfold manualRateSerializerValidate validate_rate
    constructor
    · intro h
      by_cases h1 : v < 1
      · rw [if_pos h1] at h
        exact Except.noConfusion h
      · rw [if_neg h1] at h
        by_cases h2 : 100000 < v
        · rw [if_pos h2] at h
          exact Except.noConfusion h
        · rw [if_neg h2] at h
          by_cases h3 : v ≤ 0
          · rw [if_pos h3] at h
            exact Except.noConfusion h
          · rw [if_neg h3] at h
            by_cases h4 : v < 10
            · rw [if_pos h4] at h
              exact Except.noConfusion h
            · constructor <;> linarith
    · rintro ⟨hl, hr⟩
      rw [if_neg (by linarith), if_neg (by linarith), if_neg (by linarith),
        if_neg (by linarith)]
  · intro v hv
    unfold manualRateSerializerValidate validate_rate
    by_cases h1 : v < 1
    · exact ⟨_, by rw [if_pos h1]⟩
    · exact ⟨_, by rw [if_neg h1, if_neg (by linarith), if_neg (by linarith),
        if_pos hv]⟩
  · intro s v hfresh
    obtain ⟨h2, hrec, -⟩ :=
      commitRecord_spec s.store s.now v "manual" true true "" hfresh
    refine ⟨(commitRecord s.store s.now v "manual" true true "").2,
      ?_, by rw [h2], by rw [h2], by rw [h2], by rw [h2], by rw [h2],
      rfl, rfl, rfl, ?_, ?_⟩
    · show (commitRecord s.store s.now v "manual" true true "").1.records = _
      rw [hrec]
      rfl
    · have halerts : (setManualRate s v).1.alerts
          = s.alerts ++ [⟨"manual_override",
              (commitRecord s.store s.now v "manual" true true "").2.id, none⟩] := rfl
      rw [halerts, h2]
      exact List.mem_append_right _ (List.mem_cons_self _ _)
    · intro d sources hd
      exact getCurrentRate_cache_hit _ _ _ sources rfl
        (Nat.add_lt_add_left hd s.now)

/-- Witness for C7: rate 50 validates and, committed from the empty
state, is returned by the immediately following cache read. -/
theorem manual_rate_spec_witness :
    manualRateSerializerValidate 50 = Except.ok (50, decide ((100 : ℚ) < 50))
    ∧ getCurrentRate (applyOp (setManualRate initState 50).1 (SysOp.tick 0))
          false []
        = (applyOp (setManualRate initState 50).1 (SysOp.tick 0),
           some (setManualRate initState 50).2) :=
  ⟨(manual_rate_spec.1 50).mpr ⟨by norm_num, by norm_num⟩,
   by
     obtain ⟨r2, -, -, -, -, -, -, -, -, -, -, hget⟩ :=
       manual_rate_spec.2.2 initState 50
         (fun r hr => absurd hr (List.not_mem_nil r))
     exact hget 0 [] (by norm_num [CACHE_TIMEOUT])⟩

/-- Counterexample to C7 as stated: the rate 200000 is above the
suspicious-rate ceiling (100), yet the serializer rejects it via the
field's `max_value=100000` bound instead of merely logging it. -/
theorem manual_rate_ceiling_counterexample :
    (100 : ℚ) < 200000
    ∧ manualRateSerializerValidate 200000
        = Except.error "Ensure this value is less than or equal to 100000." := by
  constructor
  · norm_num
  · with_unfolding_all rfl

/-- Claim C4: when every configured source fails, `fetch_and_store_rate`
commits an `ExchangeRateLog` row with rate 38, `source = "fallback"`,
`fetch_success = false` (and `is_active = true`), creates a
`source_fallback` alert referencing that record, caches the resulting
view for one hour, and a subsequent non-forced `get_current_rate` call
within the TTL window returns that exact fallback value and source from
the cache, leaving the state — in particular the source-chain call
counter — unchanged. -/
theorem fallback_path_spec (s : SysState) (d : Nat)
    (sources2 : List (Option (ℚ × String))) (hd : d < CACHE_TIMEOUT) :
    (fetchAndStoreRate s [none, none, none]).1.store.records
      = s.store.records
        ++ [⟨s.store.nextId, FALLBACK_RATE, "fallback", s.now, true, false,
             "All sources failed, using fallback rate", none⟩]
    ∧ (fetchAndStoreRate s [none, none, none]).2
        = some ⟨FALLBACK_RATE, s.now, "fallback", none⟩
    ∧ RateAlert.mk "source_fallback" s.store.nextId none
        ∈ (fetchAndStoreRate s [none, none, none]).1.alerts
    ∧ (fetchAndStoreRate s [none, none, none]).1.cache
        = some (⟨FALLBACK_RATE, s.now, "fallback", none⟩, s.now + CACHE_TIMEOUT)
    ∧ (fetchAndStoreRate s [none, none, none]).1.chainCalls = s.chainCalls + 1
    ∧ getCurrentRate
          (applyOp (fetchAndStoreRate s [none, none, none]).1 (SysOp.tick d))
          false sources2
        = (applyOp (fetchAndStoreRate s [none, none, none]).1 (SysOp.tick d),
           some ⟨FALLBACK_RATE, s.now, "fallback", none⟩) := by
  refine ⟨rfl, rfl, ?_, rfl, rfl, ?_⟩
  · have halerts : (fetchAndStoreRate s [none, none, none]).1.alerts
        = s.alerts ++ [] ++ [⟨"fetch_error", s.store.nextId, none⟩]
            ++ [⟨"source_fallback", s.store.nextId, none⟩] := rfl
    rw [halerts]
    simp
  · exact getCurrentRate_cache_hit _ _ _ sources2 rfl
      (Nat.add_lt_add_left hd s.now)

/-- Witness for C4: the fallback path evaluated from the empty state
with an immediate follow-up read. -/
theorem fallback_path_spec_witness :
    (fetchAndStoreRate initState [none, none, none]).2
      = some ⟨FALLBACK_RATE, 0, "fallback", none⟩
    ∧ getCurrentRate
          (applyOp (fetchAndStoreRate initState [none, none, none]).1 (SysOp.tick 0))
          false []
        = (applyOp (fetchAndStoreRate initState [none, none, none]).1 (SysOp.tick 0),
           some ⟨FALLBACK_RATE, 0, "fallback", none⟩) :=
  ⟨(fallback_path_spec initState 0 [] (by norm_num [CACHE_TIMEOUT])).2.1,
   (fallback_path_spec initState 0 [] (by norm_num [CACHE_TIMEOUT])).2.2.2.2.2⟩

/-- Claim C9 (amended): `get_current_rate` performs no single-flight
coalescing.  Each caller that misses the cache (and finds no fresh
database record) independently invokes the external source chain: in a
two-caller burst where both callers pass the cache/database read before
either fetches, the chain is invoked twice — once per caller.  Only
when a caller reads after another has repopulated the cache does a
single invocation occur, the later caller being served the first
caller's cached view. -/
theorem cache_miss_burst_spec :
    (runSchedule ⟨initState, [CallerPC.start, CallerPC.start]⟩
      [some (40, "exchangerate_host")] [0, 1, 0, 1]).sys.chainCalls = 2
    ∧ (runSchedule ⟨initState, [CallerPC.start, CallerPC.start]⟩
      [some (40, "exchangerate_host")] [0, 0, 1]).sys.chainCalls = 1
    ∧ (runSchedule ⟨initState, [CallerPC.start, CallerPC.start]⟩
      [some (40, "exchangerate_host")] [0, 0, 1]).pcs
        = [CallerPC.finished (some ⟨40, 0, "exchangerate_host", none⟩),
           CallerPC.finished (some ⟨40, 0, "exchangerate_host", none⟩)] := by
  with_unfolding_all decide

/-- Counterexample to C9 as stated: in the interleaving where both
cache-missing callers read before either fetches, the source chain is
called twice, not exactly once. -/
theorem cache_miss_burst_counterexample :
    (runSchedule ⟨initState, [CallerPC.start, CallerPC.start]⟩
      [some (40, "exchangerate_host")] [0, 1, 0, 1]).sys.chainCalls = 2
    ∧ ¬((runSchedule ⟨initState, [CallerPC.start, CallerPC.start]⟩
      [some (40, "exchangerate_host")] [0, 1, 0, 1]).sys.chainCalls = 1) := by
  with_unfolding_all decide
